import Mathlib

/-!
Verification of the NEAR access-key wallet plugin (`src/index.ts`).

The plugin keeps at most one delegated credential in `localStorage` under a
fixed key, decides per transaction whether that credential may sign it
(`shouldUseAccessKey`), signs authorized transactions locally
(`signTransactionLocally`), and otherwise forwards to the host-provided
fallback `next`.  Credential issuance (`createAccessKey`) and revocation
(`signOut`) round out the surface.

Modelling conventions of this shallow embedding:

* The `localStorage` slot is a `StoredSlot`: `absent` (no item under the key),
  `malformed` (an item that `JSON.parse` rejects, e.g. truncated JSON), or
  `valid k` (an item that parses to a record `k`).
* JavaScript exceptions are `Except Err`: `JSON.parse` throwing on a
  malformed string is `Err.syntaxError`; a property access or method call on
  `undefined`/`null` is `Err.typeError`; the `throw new Error("Unsupported
  action type: ...")` branch is `Err.unsupportedAction`; collaborator
  (wallet / RPC) failures are `Err.submission`.
* The TypeScript interface `AccessKeyData` declares all five fields required,
  but the writer `createAccessKey` can store records in which `accountId` or
  `allowedMethods` are `undefined` (and `JSON.stringify` then omits them), so
  the embedded record type makes those two fields `Option`s.  Readers that
  access them without a check are modelled accordingly: `allowedMethods
  .includes` on `undefined` throws (`typeError`); `accountId` is passed
  through to the network layer unchecked.
* External collaborators (the interactive wallet, the RPC submission layer,
  the fresh key generation) are inputs: submission oracles
  `... → Except Err Outcome` and an explicitly passed fresh private key.
  `KeyPair.getPublicKey` is abstracted by the concrete function `pubOf`; the
  only property used is that the registered public key is `pubOf` of the
  stored private key.
* `FinalExecutionOutcome` and function-call argument payloads are opaque to
  the plugin and are modelled as strings.
-/

deriving instance DecidableEq for Except

namespace NearAccessKey

/-- Opaque `FinalExecutionOutcome` returned by a submission collaborator. -/
abbrev Outcome := String

/-- JavaScript exceptions that can escape the plugin's code paths. -/
inductive Err where
  | syntaxError
  | typeError
  | unsupportedAction (ty : String)
  | submission (msg : String)
deriving DecidableEq, Repr

/-- JavaScript `s || dflt` on a string value: the default is taken exactly
when the string is empty (the only falsy non-nullish string). -/
def jsOrDefaultS (s dflt : String) : String :=
  if s = "" then dflt else s

/-- JavaScript `v || dflt` on a possibly-`undefined` string value. -/
def jsOrDefault (v : Option String) (dflt : String) : String :=
  match v with
  | none => dflt
  | some s => jsOrDefaultS s dflt

/-- Abstraction of `KeyPair.getPublicKey().toString()`: derives the public
key of a key pair from its private-key string. -/
def pubOf (privateKey : String) : String :=
  String.append "ed25519-pub-of:" privateKey

/-- Parameters of a `FunctionCall` action in a transaction request
(`action.params`): `gas` and `deposit` are optional and defaulted during
translation, `args` is an opaque payload. -/
structure FnCallParams where
  methodName : String
  args : String
  gas : Option String
  deposit : Option String
deriving DecidableEq, Repr

/-- The permission object of the `AddKey` action built by `createAccessKey`:
`{receiverId: contractId, methodNames, allowance}`. -/
structure AddKeyPermission where
  receiverId : String
  methodNames : List String
  allowance : String
deriving DecidableEq, Repr

/-- A transaction action: the plugin authorizes and translates only
`FunctionCall`; it itself builds one `AddKey` during issuance; every other
action type is `other ty`. -/
inductive Action where
  | functionCall (p : FnCallParams)
  | addKey (publicKey : String) (permission : AddKeyPermission)
  | other (ty : String)
deriving DecidableEq, Repr

/-- A transaction request (`SignAndSendTransactionParams`): target account,
action list, and the optional network tag used only to pick the RPC URL. -/
structure Tx where
  receiverId : String
  actions : List Action
  network : Option String
deriving DecidableEq, Repr

/-- A transaction handed to the interactive wallet by `createAccessKey`; its
`receiverId` is `walletAccounts[0]?.accountId`, which is `undefined` when the
wallet returned no accounts, hence the `Option`. -/
structure WalletTx where
  receiverId : Option String
  actions : List Action
deriving DecidableEq, Repr

/-- The record stored under the storage key.  The TypeScript interface
declares every field required, but `createAccessKey` can write `undefined`
into `accountId` (empty wallet-account list) and `allowedMethods`
(`methodNames` parameter omitted) — `JSON.stringify` then drops the field —
so those two are `Option`s here. -/
structure AccessKeyData where
  accountId : Option String
  privateKey : String
  contractId : String
  allowedMethods : Option (List String)
  allowance : String
deriving DecidableEq, Repr

/-- The `localStorage` slot under `STORAGE_KEY`: empty, holding a string
`JSON.parse` rejects, or holding a string that parses to a record. -/
inductive StoredSlot where
  | absent
  | malformed
  | valid (k : AccessKeyData)
deriving DecidableEq, Repr

/-- The action loop of `shouldUseAccessKey`: a non-`FunctionCall` action
returns `false` before `allowedMethods` is touched; a `FunctionCall` action
calls `key.allowedMethods.includes(methodName)`, which throws a `TypeError`
when `allowedMethods` is `undefined`. -/
def checkActions (allowedMethods : Option (List String)) :
    List Action → Except Err Bool
  | [] => .ok true
  | .functionCall p :: rest =>
      match allowedMethods with
      | none => .error .typeError
      | some ms =>
          if p.methodName ∈ ms then checkActions allowedMethods rest
          else .ok false
  | _ :: _ => .ok false

/-- `shouldUseAccessKey` (src/index.ts lines 34–49): `false` when nothing is
stored; `JSON.parse` of the stored string (throws on a malformed string);
`false` when the target differs from the credential's contract; then the
per-action loop. -/
def shouldUseAccessKey (s : StoredSlot) (tx : Tx) : Except Err Bool :=
  match s with
  | .absent => .ok false
  | .malformed => .error .syntaxError
  | .valid k =>
      if tx.receiverId ≠ k.contractId then .ok false
      else checkActions k.allowedMethods tx.actions

/-- RPC endpoint selection in `signTransactionLocally`:
`tx.network === "mainnet"` picks the production URL, anything else the test
URL. -/
def rpcUrl (network : Option String) : String :=
  if network = some "mainnet" then "https://rpc.fastnear.com"
  else "https://test.rpc.fastnear.com"

/-- A function-call action after translation by `actionCreators.functionCall`
in `signTransactionLocally`: gas defaults to `"30000000000000"`, deposit to
`"0"` (the `BigInt` conversion of these decimal strings is kept as the
string itself; it is irrelevant to the claims). -/
structure TAction where
  methodName : String
  args : String
  gas : String
  deposit : String
deriving DecidableEq, Repr

/-- The action translation in `signTransactionLocally` (lines 66–76): a
`FunctionCall` becomes a `TAction` with defaulted gas/deposit; any other
action type hits `throw new Error("Unsupported action type: ...")`. -/
def translateAction : Action → Except Err TAction
  | .functionCall p =>
      .ok ⟨p.methodName, p.args,
           jsOrDefault p.gas "30000000000000", jsOrDefault p.deposit "0"⟩
  | .addKey _ _ => .error (.unsupportedAction "AddKey")
  | .other ty => .error (.unsupportedAction ty)

/-- `tx.actions.map (...)` with a possible throw inside the callback:
left-to-right, the first throw aborts the whole map. -/
def translateActions : List Action → Except Err (List TAction)
  | [] => .ok []
  | a :: rest =>
      match translateAction a with
      | .error e => .error e
      | .ok t =>
          match translateActions rest with
          | .error e => .error e
          | .ok ts => .ok (t :: ts)

/-- What `signTransactionLocally` hands to the network layer: the
`Account(accountId, provider(rpcUrl), signer(privateKey))` identity plus
`{receiverId, actions}`. -/
structure Submission where
  rpcUrl : String
  accountId : Option String
  privateKey : String
  receiverId : String
  actions : List TAction
deriving DecidableEq, Repr

/-- `signTransactionLocally` (lines 51–83): re-reads and `JSON.parse`s the
stored slot (on an absent slot `JSON.parse(null)` yields `null` and the
subsequent `keyData.privateKey` access throws a `TypeError`; on a malformed
slot `JSON.parse` throws a `SyntaxError`), selects the RPC URL, rebuilds the
signing identity, translates the actions (which can throw
`unsupportedAction`), and submits via the network-layer oracle `submit`. -/
def signTransactionLocally (s : StoredSlot)
    (submit : Submission → Except Err Outcome) (tx : Tx) :
    Except Err Outcome :=
  match s with
  | .absent => .error .typeError
  | .malformed => .error .syntaxError
  | .valid k =>
      match translateActions tx.actions with
      | .error e => .error e
      | .ok tas =>
          submit ⟨rpcUrl tx.network, k.accountId, k.privateKey,
                  tx.receiverId, tas⟩

/-- `signOut` (lines 86–92): removes the stored item, then always invokes
the fallback `next`.  Returns the new slot and whether `next` ran. -/
def signOut (_s : StoredSlot) : StoredSlot × Bool :=
  (.absent, true)

/-- `signAndSendTransaction` (lines 94–102): local signing when
`shouldUseAccessKey` returns `true`, fallback `next` otherwise; an exception
from the predicate propagates.  The `Bool` records whether `next` ran; the
fallback's result is the opaque input `next`. -/
def signAndSendTransaction (s : StoredSlot)
    (submit : Submission → Except Err Outcome)
    (next : Except Err Outcome) (tx : Tx) :
    Bool × Except Err Outcome :=
  match shouldUseAccessKey s tx with
  | .error e => (false, .error e)
  | .ok true => (false, signTransactionLocally s submit tx)
  | .ok false => (true, next)

/-- `params.transactions.every((tx) => shouldUseAccessKey(tx))`:
short-circuits on the first `false`, and an exception in the callback
propagates. -/
def allCanUseAccessKey (s : StoredSlot) : List Tx → Except Err Bool
  | [] => .ok true
  | tx :: rest =>
      match shouldUseAccessKey s tx with
      | .error e => .error e
      | .ok false => .ok false
      | .ok true => allCanUseAccessKey s rest

/-- The sequential `for (const tx of params.transactions) { await ... }`
loop of `signAndSendTransactions`: submissions happen strictly in input
order, each awaited before the next starts, and the first failure aborts the
loop, discarding the outcomes already collected.  The first component is the
trace of transactions actually submitted locally, in order. -/
def runBatchLocal (s : StoredSlot)
    (submit : Submission → Except Err Outcome) :
    List Tx → List Tx × Except Err (List Outcome)
  | [] => ([], .ok [])
  | tx :: rest =>
      match signTransactionLocally s submit tx with
      | .error e => ([tx], .error e)
      | .ok r =>
          match runBatchLocal s submit rest with
          | (tr, .error e) => (tx :: tr, .error e)
          | (tr, .ok l) => (tx :: tr, .ok (r :: l))

/-- Observable result of a `signAndSendTransactions` call: which
transactions were submitted locally (in order), whether the fallback `next`
ran, and the returned value. -/
structure BatchResult where
  trace : List Tx
  nextInvoked : Bool
  result : Except Err (List Outcome)
deriving DecidableEq, Repr

/-- `signAndSendTransactions` (lines 104–122): if every transaction passes
`shouldUseAccessKey`, run the sequential local loop; otherwise hand the
batch to the fallback `next`.  An exception while evaluating `every`
propagates. -/
def signAndSendTransactions (s : StoredSlot)
    (submit : Submission → Except Err Outcome)
    (next : Except Err (List Outcome)) (txs : List Tx) : BatchResult :=
  match allCanUseAccessKey s txs with
  | .error e => ⟨[], false, .error e⟩
  | .ok true =>
      match runBatchLocal s submit txs with
      | (tr, res) => ⟨tr, false, res⟩
  | .ok false => ⟨[], true, next⟩

/-- Inputs of `createAccessKey` except the collaborators: contract, optional
method list, optional allowance. -/
structure CreateParams where
  contractId : String
  methodNames : Option (List String)
  allowance : Option String
deriving DecidableEq, Repr

/-- The default allowance, 0.25 NEAR in yoctoNEAR. -/
def defaultAllowance : String := "250000000000000000000000"

/-- The `AddKey` registration transaction `createAccessKey` submits through
the interactive wallet: receiver `walletAccounts[0]?.accountId`, one
`AddKey` action granting `newPublicKey` a permission scoped to
`contractId` / `methodNames || []`, capped at `allowance || default`. -/
def registrationTx (walletAccounts : List String) (p : CreateParams)
    (newPublicKey : String) : WalletTx :=
  ⟨walletAccounts.head?,
   [.addKey newPublicKey
      ⟨p.contractId, p.methodNames.getD [],
       jsOrDefault p.allowance defaultAllowance⟩]⟩

/-- `createAccessKey` (lines 124–171): defaults the allowance, takes
`walletAccounts[0]?.accountId` (with no emptiness check — `accountId` is
`none` when the wallet returned no accounts), derives the new public key
from the fresh private key, submits the `AddKey` transaction through the
wallet oracle `walletSubmit`, and only on success overwrites the stored
slot with `{accountId, privateKey, contractId, allowedMethods: methodNames,
allowance: allowance || default}`; a submission failure propagates with the
store untouched. -/
def createAccessKey (walletAccounts : List String)
    (walletSubmit : WalletTx → Except Err Outcome)
    (freshPrivateKey : String) (s : StoredSlot) (p : CreateParams) :
    StoredSlot × Except Err Outcome :=
  let allowance := jsOrDefault p.allowance defaultAllowance
  let accountId := walletAccounts.head?
  match walletSubmit (registrationTx walletAccounts p (pubOf freshPrivateKey)) with
  | .error e => (s, .error e)
  | .ok r =>
      (.valid ⟨accountId, freshPrivateKey, p.contractId, p.methodNames,
               jsOrDefaultS allowance defaultAllowance⟩,
       .ok r)

/-- Spec-side characterization of an allowed action (§4.2 step 3, stated
from the spec's words, to be compared with the source's loop): the action is
a function call whose method name is a member of the allowed list. -/
def specActionOk (ms : List String) : Action → Bool
  | .functionCall p => decide (p.methodName ∈ ms)
  | _ => false

/-- Spec-side characterization of the authorization predicate (§4.2 / §8,
stated from the spec's words): the target equals the credential's scope
contract and every action is an allowed function call. -/
def specAuthorized (contractId : String) (ms : List String) (tx : Tx) : Bool :=
  decide (tx.receiverId = contractId) && tx.actions.all (specActionOk ms)

/-- Observation: the predicate evaluated without throwing. -/
def predNoThrow (s : StoredSlot) (tx : Tx) : Bool :=
  match shouldUseAccessKey s tx with
  | .ok _ => true
  | .error _ => false

/-- Observation: the predicate evaluated to `true`. -/
def predTrue (s : StoredSlot) (tx : Tx) : Bool :=
  match shouldUseAccessKey s tx with
  | .ok true => true
  | _ => false

/-- Observation: a computation returned normally rather than throwing. -/
def isOkE {α : Type} : Except Err α → Bool
  | .ok _ => true
  | .error _ => false

/-- Observation: the action is a `FunctionCall`. -/
def isFunctionCallB : Action → Bool
  | .functionCall _ => true
  | _ => false

/-- Observation: local signing of `tx` returns normally. -/
def localOk (s : StoredSlot) (submit : Submission → Except Err Outcome)
    (tx : Tx) : Bool :=
  isOkE (signTransactionLocally s submit tx)

/-- Reference sequential map in the exception monad: applies `f` left to
right and stops at the first exception, returning the results in input
order. -/
def mapExcept {α β : Type} (f : α → Except Err β) :
    List α → Except Err (List β)
  | [] => .ok []
  | a :: rest =>
      match f a with
      | .error e => .error e
      | .ok b =>
          match mapExcept f rest with
          | .error e => .error e
          | .ok bs => .ok (b :: bs)

/-- The public key granted by the single `AddKey` action of a registration
transaction. -/
def registeredPublicKey (wtx : WalletTx) : Option String :=
  match wtx.actions with
  | [.addKey pk _] => some pk
  | _ => none

/-- Sample credential used by concrete witnesses. -/
def credW : AccessKeyData :=
  ⟨some "alice.near", "skW", "app.near", some ["vote"], "1"⟩

/-- Sample slot holding `credW`. -/
def slotW : StoredSlot := .valid credW

/-- Sample authorized request (spec §8 example). -/
def txVoteW : Tx :=
  ⟨"app.near", [.functionCall ⟨"vote", "argsW", none, none⟩], none⟩

/-- Sample unauthorized request: wrong target account. -/
def txOtherW : Tx :=
  ⟨"other.near", [.functionCall ⟨"vote", "argsW", none, none⟩], none⟩

/-- Sample network-layer oracle that always succeeds. -/
def submitOkW : Submission → Except Err Outcome := fun _ => .ok "outcomeW"

/-- Sample interactive-wallet oracle that always succeeds. -/
def walletOkW : WalletTx → Except Err Outcome := fun _ => .ok "regOutcomeW"

/-- Sample interactive-wallet oracle that always fails. -/
def walletErrW : WalletTx → Except Err Outcome :=
  fun _ => .error (.submission "regFailW")

/-- The action loop of `shouldUseAccessKey`, when the stored method list is
present, returns `true` exactly when every action is an allowed function
call in the spec's sense. -/
lemma checkActions_some_eq_ok_true_iff (ms : List String) (as : List Action) :
    checkActions (some ms) as = .ok true ↔ as.all (specActionOk ms) = true := by
  induction as with
  | nil => simp [checkActions]
  | cons a rest ih =>
      cases a with
      | functionCall p =>
          by_cases hmem : p.methodName ∈ ms
          · simp [checkActions, hmem, specActionOk, ih]
          · simp [checkActions, hmem, specActionOk]
      | addKey pk perm => simp [checkActions, specActionOk]
      | other ty => simp [checkActions, specActionOk]

/-- C1: For a stored credential whose method list is present, the
authorization predicate returns `true` exactly when the request targets the
credential's scope contract and every action is a function call whose
method name is allowed; and with no stored credential the predicate returns
`false` for any request. -/
theorem shouldUseAccessKey_iff_spec (k : AccessKeyData) (ms : List String)
    (tx tx2 : Tx) (hm : k.allowedMethods = some ms) :
    (shouldUseAccessKey (.valid k) tx = .ok true ↔
       specAuthorized k.contractId ms tx = true)
    ∧ shouldUseAccessKey .absent tx2 = .ok false := by
  refine ⟨?_, rfl⟩
  simp only [shouldUseAccessKey, specAuthorized, hm]
  by_cases hr : tx.receiverId = k.contractId
  · simp [hr, checkActions_some_eq_ok_true_iff]
  · simp [hr]

/-- C1 witness: the spec §8 example credential and requests. -/
theorem shouldUseAccessKey_iff_spec_witness :
    credW.allowedMethods = some ["vote"] ∧
    ((shouldUseAccessKey (.valid credW) txVoteW = .ok true ↔
        specAuthorized credW.contractId ["vote"] txVoteW = true)
      ∧ shouldUseAccessKey .absent txOtherW = .ok false) :=
  ⟨rfl, shouldUseAccessKey_iff_spec credW ["vote"] txVoteW txOtherW rfl⟩

/-- C2: A malformed stored string is not treated as an absent credential:
`JSON.parse` throws, the exception escapes `shouldUseAccessKey`, and the
`signAndSendTransaction` hook therefore throws instead of answering `false`
and falling back.  This contradicts the spec's requirement that malformed
stored data read as absent. -/
theorem malformed_store_read_throws :
    shouldUseAccessKey .malformed txVoteW = .error .syntaxError ∧
    signAndSendTransaction .malformed submitOkW (.ok "fallbackW") txVoteW
      = (false, .error .syntaxError) := by
  exact ⟨rfl, rfl⟩

/-- C4: With an empty wallet-account list, `createAccessKey` does not fail
with a no-account error: it proceeds, submits the registration with an
`undefined` receiver, and persists a credential whose `accountId` is
`undefined`.  This contradicts the spec's required `NoAccountError`. -/
theorem createAccessKey_empty_accounts_proceeds :
    createAccessKey [] walletOkW "skW" .absent ⟨"app.near", some ["vote"], none⟩
      = (.valid ⟨none, "skW", "app.near", some ["vote"], defaultAllowance⟩,
         .ok "regOutcomeW") := by
  decide

/-- `every` over the batch answers `true` exactly when the predicate
answers `true` on each transaction. -/
lemma allCanUseAccessKey_eq_ok_true_iff (s : StoredSlot) (txs : List Tx) :
    allCanUseAccessKey s txs = .ok true ↔ txs.all (predTrue s) = true := by
  induction txs with
  | nil => simp [allCanUseAccessKey]
  | cons tx rest ih =>
      cases h : shouldUseAccessKey s tx with
      | error e => simp [allCanUseAccessKey, h, predTrue]
      | ok b =>
          cases b with
          | false => simp [allCanUseAccessKey, h, predTrue]
          | true => simp [allCanUseAccessKey, h, predTrue, ih]

/-- If the predicate throws on no transaction of the batch and is not `true`
on all of them, `every` answers `false`. -/
lemma allCanUseAccessKey_eq_ok_false (s : StoredSlot) (txs : List Tx)
    (hwf : txs.all (predNoThrow s) = true)
    (hnot : txs.all (predTrue s) = false) :
    allCanUseAccessKey s txs = .ok false := by
  induction txs with
  | nil => simp at hnot
  | cons tx rest ih =>
      simp only [List.all_cons, Bool.and_eq_true] at hwf
      simp only [List.all_cons, Bool.and_eq_false_iff] at hnot
      cases h : shouldUseAccessKey s tx with
      | error e =>
          exfalso
          have := hwf.1
          simp [predNoThrow, h] at this
      | ok b =>
          cases b with
          | false => simp [allCanUseAccessKey, h]
          | true =>
              have hrest : rest.all (predTrue s) = false := by
                rcases hnot with hl | hr
                · simp [predTrue, h] at hl
                · exact hr
              simp [allCanUseAccessKey, h, ih hwf.2 hrest]

/-- C3: Provided the predicate throws on no transaction of the batch,
`signAndSendTransactions` runs the local sequential signing loop exactly
when every transaction passes the predicate; when at least one fails, the
whole batch goes to the fallback `next`, nothing is submitted locally, and
the fallback's answer is returned as-is. -/
theorem batch_all_or_nothing (s : StoredSlot)
    (submit : Submission → Except Err Outcome)
    (next : Except Err (List Outcome)) (txs : List Tx)
    (hwf : txs.all (predNoThrow s) = true) :
    (txs.all (predTrue s) = true →
       signAndSendTransactions s submit next txs =
         ⟨(runBatchLocal s submit txs).1, false,
          (runBatchLocal s submit txs).2⟩)
    ∧ (txs.all (predTrue s) = false →
       signAndSendTransactions s submit next txs = ⟨[], true, next⟩) := by
  constructor
  · intro hall
    have h1 : allCanUseAccessKey s txs = .ok true :=
      (allCanUseAccessKey_eq_ok_true_iff s txs).mpr hall
    simp [signAndSendTransactions, h1]
  · intro hnot
    have h1 : allCanUseAccessKey s txs = .ok false :=
      allCanUseAccessKey_eq_ok_false s txs hwf hnot
    simp [signAndSendTransactions, h1]

/-- C3 witness: a two-request batch with one disqualified request falls back
whole; the same batch with both requests in scope signs locally. -/
theorem batch_all_or_nothing_witness :
    [txVoteW, txOtherW].all (predNoThrow slotW) = true ∧
    (([txVoteW, txOtherW].all (predTrue slotW) = true →
       signAndSendTransactions slotW submitOkW (.ok []) [txVoteW, txOtherW] =
         ⟨(runBatchLocal slotW submitOkW [txVoteW, txOtherW]).1, false,
          (runBatchLocal slotW submitOkW [txVoteW, txOtherW]).2⟩)
    ∧ ([txVoteW, txOtherW].all (predTrue slotW) = false →
       signAndSendTransactions slotW submitOkW (.ok []) [txVoteW, txOtherW] =
         ⟨[], true, .ok []⟩)) :=
  ⟨by decide,
   batch_all_or_nothing slotW submitOkW (.ok []) [txVoteW, txOtherW]
     (by decide)⟩

/-- C5: When the wallet submission of the registration transaction fails,
`createAccessKey` returns exactly that error and leaves the stored slot
exactly as it was. -/
theorem createAccessKey_registration_failure_atomic
    (accounts : List String) (walletSubmit : WalletTx → Except Err Outcome)
    (fresh : String) (s : StoredSlot) (p : CreateParams) (e : Err)
    (h : walletSubmit (registrationTx accounts p (pubOf fresh)) = .error e) :
    createAccessKey accounts walletSubmit fresh s p = (s, .error e) := by
  simp [createAccessKey, h]

/-- C5 witness: a failing wallet oracle, starting from a populated slot. -/
theorem createAccessKey_registration_failure_atomic_witness :
    walletErrW
      (registrationTx ["alice.near"] ⟨"app.near", some ["vote"], none⟩
        (pubOf "skW")) = .error (.submission "regFailW") ∧
    createAccessKey ["alice.near"] walletErrW "skW" slotW
      ⟨"app.near", some ["vote"], none⟩ =
      (slotW, .error (.submission "regFailW")) :=
  ⟨rfl,
   createAccessKey_registration_failure_atomic ["alice.near"] walletErrW
     "skW" slotW ⟨"app.near", some ["vote"], none⟩
     (.submission "regFailW") rfl⟩

/-- If the action loop of the predicate answers `true`, every inspected
action was a `FunctionCall`. -/
lemma checkActions_ok_true_all_fc (am : Option (List String))
    (as : List Action) (h : checkActions am as = .ok true) :
    as.all isFunctionCallB = true := by
  induction as with
  | nil => rfl
  | cons a rest ih =>
      cases a with
      | functionCall p =>
          cases am with
          | none => simp [checkActions] at h
          | some ms =>
              by_cases hmem : p.methodName ∈ ms
              · simp only [checkActions, hmem, if_true] at h
                simp [isFunctionCallB, ih h]
              · simp [checkActions, hmem] at h
      | addKey pk perm => simp [checkActions] at h
      | other ty => simp [checkActions] at h

/-- Translating a list of `FunctionCall` actions never throws. -/
lemma translateActions_ok_of_all_fc (as : List Action)
    (h : as.all isFunctionCallB = true) :
    isOkE (translateActions as) = true := by
  induction as with
  | nil => rfl
  | cons a rest ih =>
      simp only [List.all_cons, Bool.and_eq_true] at h
      cases a with
      | functionCall p =>
          have hrest := ih h.2
          cases ht : translateActions rest with
          | error e => simp [isOkE, ht] at hrest
          | ok ts => simp [translateActions, translateAction, ht, isOkE]
      | addKey pk perm => simp [isFunctionCallB] at h
      | other ty => simp [isFunctionCallB] at h

/-- C6: If the authorization predicate answered `true` for a request — the
only way into the local-signing path — then every action of the request is a
`FunctionCall`, so the unsupported-action throw in the action translation is
unreachable and the translation returns normally. -/
theorem authorized_implies_all_function_call (s : StoredSlot) (tx : Tx)
    (h : shouldUseAccessKey s tx = .ok true) :
    tx.actions.all isFunctionCallB = true ∧
    isOkE (translateActions tx.actions) = true := by
  have hfc : tx.actions.all isFunctionCallB = true := by
    cases s with
    | absent => simp [shouldUseAccessKey] at h
    | malformed => simp [shouldUseAccessKey] at h
    | valid k =>
        simp only [shouldUseAccessKey] at h
        by_cases hr : tx.receiverId = k.contractId
        · simp only [hr, ne_eq, not_true_eq_false, if_false] at h
          exact checkActions_ok_true_all_fc _ _ h
        · simp [hr] at h
  exact ⟨hfc, translateActions_ok_of_all_fc _ hfc⟩

/-- C6 witness: the authorized sample request. -/
theorem authorized_implies_all_function_call_witness :
    shouldUseAccessKey slotW txVoteW = .ok true ∧
    (txVoteW.actions.all isFunctionCallB = true ∧
     isOkE (translateActions txVoteW.actions) = true) :=
  ⟨by decide,
   authorized_implies_all_function_call slotW txVoteW (by decide)⟩

/-- Re-defaulting an already defaulted value is the identity when the
default itself is non-empty. -/
lemma jsOrDefaultS_jsOrDefault (v : Option String) (d : String)
    (hd : d ≠ "") : jsOrDefaultS (jsOrDefault v d) d = jsOrDefault v d := by
  cases v with
  | none => simp [jsOrDefault, jsOrDefaultS, hd]
  | some s =>
      by_cases hs : s = ""
      · simp [jsOrDefault, jsOrDefaultS, hs, hd]
      · simp [jsOrDefault, jsOrDefaultS, hs]

/-- C8: On a successful registration submission, `createAccessKey` returns
the submission outcome and the stored slot now holds a credential whose
contract and method list are exactly the call's inputs, whose private key is
the fresh key whose public counterpart was registered by the `AddKey`
action, and whose allowance is the input allowance, the fixed 0.25-NEAR
constant when unspecified. -/
theorem createAccessKey_success_postcondition
    (accounts : List String) (walletSubmit : WalletTx → Except Err Outcome)
    (fresh : String) (s : StoredSlot) (p : CreateParams) (r : Outcome)
    (h : walletSubmit (registrationTx accounts p (pubOf fresh)) = .ok r) :
    createAccessKey accounts walletSubmit fresh s p =
      (.valid ⟨accounts.head?, fresh, p.contractId, p.methodNames,
               jsOrDefault p.allowance defaultAllowance⟩, .ok r)
    ∧ registeredPublicKey (registrationTx accounts p (pubOf fresh)) =
        some (pubOf fresh) := by
  refine ⟨?_, rfl⟩
  simp [createAccessKey, h,
        jsOrDefaultS_jsOrDefault p.allowance defaultAllowance
          (by simp [defaultAllowance])]

/-- C8 witness: issuance with an unspecified allowance stores the default
0.25-NEAR allowance and the key pair matching the registered public key. -/
theorem createAccessKey_success_postcondition_witness :
    walletOkW
      (registrationTx ["alice.near"] ⟨"app.near", some ["vote"], none⟩
        (pubOf "skW")) = .ok "regOutcomeW" ∧
    (createAccessKey ["alice.near"] walletOkW "skW" .absent
        ⟨"app.near", some ["vote"], none⟩ =
      (.valid ⟨some "alice.near", "skW", "app.near", some ["vote"],
               defaultAllowance⟩, .ok "regOutcomeW")
     ∧ registeredPublicKey
         (registrationTx ["alice.near"] ⟨"app.near", some ["vote"], none⟩
           (pubOf "skW")) = some (pubOf "skW")) :=
  ⟨rfl,
   createAccessKey_success_postcondition ["alice.near"] walletOkW "skW"
     .absent ⟨"app.near", some ["vote"], none⟩ "regOutcomeW" rfl⟩

/-- The value returned by the sequential local loop is the sequential
exception-monad map of per-transaction local signing. -/
lemma runBatchLocal_snd (s : StoredSlot)
    (submit : Submission → Except Err Outcome) (txs : List Tx) :
    (runBatchLocal s submit txs).2 =
      mapExcept (signTransactionLocally s submit) txs := by
  induction txs with
  | nil => rfl
  | cons tx rest ih =>
      cases h : signTransactionLocally s submit tx with
      | error e => simp [runBatchLocal, mapExcept, h]
      | ok r =>
          rcases hrb : runBatchLocal s submit rest with ⟨tr, res⟩
          rw [hrb] at ih
          cases res with
          | error e => simp [runBatchLocal, mapExcept, h, hrb, ← ih]
          | ok l => simp [runBatchLocal, mapExcept, h, hrb, ← ih]

/-- The transactions actually submitted by the sequential local loop are the
input prefix up to and including the first failing one (the whole input when
none fails). -/
lemma runBatchLocal_fst (s : StoredSlot)
    (submit : Submission → Except Err Outcome) (txs : List Tx) :
    (runBatchLocal s submit txs).1 =
      txs.take ((txs.takeWhile (localOk s submit)).length + 1) := by
  induction txs with
  | nil => rfl
  | cons tx rest ih =>
      cases h : signTransactionLocally s submit tx with
      | error e =>
          have hp : localOk s submit tx = false := by simp [localOk, isOkE, h]
          simp [runBatchLocal, h, List.takeWhile_cons, hp]
      | ok r =>
          have hp : localOk s submit tx = true := by simp [localOk, isOkE, h]
          rcases hrb : runBatchLocal s submit rest with ⟨tr, res⟩
          rw [hrb] at ih
          cases res with
          | error e =>
              simp [runBatchLocal, h, hrb, List.takeWhile_cons, hp,
                    List.take_succ_cons]
              exact ih
          | ok l =>
              simp [runBatchLocal, h, hrb, List.takeWhile_cons, hp,
                    List.take_succ_cons]
              exact ih

/-- The sequential map returns a normal value exactly when it returns the
per-item results in input order (supports the reading of
`batch_sequential_order_and_abort`). -/
lemma mapExcept_ok_iff {α β : Type} (f : α → Except Err β) (as : List α)
    (bs : List β) :
    mapExcept f as = .ok bs ↔
      List.Forall₂ (fun a b => f a = .ok b) as bs := by
  induction as generalizing bs with
  | nil =>
      simp [mapExcept, List.forall₂_nil_left_iff, eq_comm]
  | cons a rest ih =>
      cases h : f a with
      | error e => simp [mapExcept, h, List.forall₂_cons_left_iff]
      | ok b0 =>
          cases hrest : mapExcept f rest with
          | error e =>
              simp only [mapExcept, h, hrest]
              simp [List.forall₂_cons_left_iff, h, ← ih, hrest]
          | ok bs0 =>
              simp only [mapExcept, h, hrest]
              simp [List.forall₂_cons_left_iff, h, ← ih, hrest, eq_comm]

/-- C7: On a fully authorized batch, `signAndSendTransactions` never calls
the fallback; it submits exactly the input prefix up to and including the
first failing transaction (the whole batch, still in input order, when none
fails); and its returned value is the strictly sequential exception-monad
map of local signing over the batch — the outcomes in input order on full
success, and on a failure at position k just that error, with the outcomes
of positions 0..k-1 discarded (`mapExcept_ok_iff` characterizes the success
case). -/
theorem batch_sequential_order_and_abort (s : StoredSlot)
    (submit : Submission → Except Err Outcome)
    (next : Except Err (List Outcome)) (txs : List Tx)
    (hauth : txs.all (predTrue s) = true) :
    (signAndSendTransactions s submit next txs).nextInvoked = false
    ∧ (signAndSendTransactions s submit next txs).trace =
        txs.take ((txs.takeWhile (localOk s submit)).length + 1)
    ∧ (signAndSendTransactions s submit next txs).result =
        mapExcept (signTransactionLocally s submit) txs := by
  have h1 : allCanUseAccessKey s txs = .ok true :=
    (allCanUseAccessKey_eq_ok_true_iff s txs).mpr hauth
  have hfst := runBatchLocal_fst s submit txs
  have hsnd := runBatchLocal_snd s submit txs
  rcases hrb : runBatchLocal s submit txs with ⟨tr, res⟩
  rw [hrb] at hfst hsnd
  simp [signAndSendTransactions, h1, hrb, hfst, hsnd]

/-- C7 witness: a two-element authorized batch against an always-succeeding
network layer. -/
theorem batch_sequential_order_and_abort_witness :
    [txVoteW, txVoteW].all (predTrue slotW) = true ∧
    ((signAndSendTransactions slotW submitOkW (.ok []) [txVoteW, txVoteW]).nextInvoked = false
     ∧ (signAndSendTransactions slotW submitOkW (.ok []) [txVoteW, txVoteW]).trace =
         [txVoteW, txVoteW].take
           (([txVoteW, txVoteW].takeWhile (localOk slotW submitOkW)).length + 1)
     ∧ (signAndSendTransactions slotW submitOkW (.ok []) [txVoteW, txVoteW]).result =
         mapExcept (signTransactionLocally slotW submitOkW) [txVoteW, txVoteW]) :=
  ⟨by decide,
   batch_sequential_order_and_abort slotW submitOkW (.ok []) [txVoteW, txVoteW]
     (by decide)⟩

/-- C9: `signOut` clears the stored slot and runs the injected fallback for
every starting state, in particular when the slot was already empty; after
it, every request — including any previously authorized one — takes the
fallback path of `signAndSendTransaction`. -/
theorem signOut_clears_and_falls_back (s : StoredSlot)
    (submit : Submission → Except Err Outcome) (next : Except Err Outcome)
    (tx : Tx) :
    signOut s = (.absent, true) ∧
    signAndSendTransaction (signOut s).1 submit next tx = (true, next) := by
  exact ⟨rfl, rfl⟩

/-- C10: On an empty batch, `signAndSendTransactions` takes the local branch
vacuously for every stored-slot state (absent, malformed or valid): it
returns the empty outcome list, submits nothing and never invokes the
fallback. -/
theorem empty_batch_vacuous_local (s : StoredSlot)
    (submit : Submission → Except Err Outcome)
    (next : Except Err (List Outcome)) :
    signAndSendTransactions s submit next [] = ⟨[], false, .ok []⟩ := by
  rfl

end NearAccessKey
